import Mathlib

/-!
Shallow embedding of the Daily Task Tracker (daily_task_tracker_app.py).

The app keeps a flat table of task records (columns user, date, task,
status, deadline), persisted as CSV.  A form submission upserts a record
keyed by (user, date, task); a bulk-edit save recombines the active
user's edited slice with the other owners' untouched rows; `load_data`
back-fills missing columns; `send_daily_reminder` skips unless sender
credentials and at least one non-empty recipient are configured.

Dates are modelled by their textual form (the persisted format), so date
equality in the upsert mask is string equality of the canonical form.
-/

/-- A task record: one row of the table, in column order
user | date | task | status | deadline.  Dates are kept in their
textual (persisted) form. -/
structure Row where
  user : String
  date : String
  task : String
  status : String
  deadline : String
deriving DecidableEq, Repr

/-- The boolean match mask of the form handler:
`(df["user"] == active_user) & (df["date"] == task_date) & (df["task"] == task_name)`. -/
def taskMatches (activeUser taskDate taskName : String) (r : Row) : Bool :=
  r.user == activeUser && r.date == taskDate && r.task == taskName

/-- The reconciler (lines 120-130 of daily_task_tracker_app.py): if any row
matches the (user, date, task) key, overwrite status and deadline of every
matching row in place; otherwise append a new row
`[active_user, task_date, task_name, status, deadline]`. -/
def upsert (df : List Row) (activeUser taskDate taskName status deadline : String) : List Row :=
  if df.any (taskMatches activeUser taskDate taskName) then
    df.map (fun r =>
      if taskMatches activeUser taskDate taskName r then
        { r with status := status, deadline := deadline }
      else r)
  else
    df ++ [{ user := activeUser, date := taskDate, task := taskName,
             status := status, deadline := deadline }]

/-- Python whitespace: exactly the characters `str.strip()` removes —
the ASCII control whitespace \t \n \x0b \x0c \r, the separators
\x1c-\x1f, space, \x85, and the Unicode space separators (NBSP, ogham
space, en/em-style spaces, line/paragraph separator, narrow NBSP,
mathematical space, ideographic space). -/
def pyWhitespace (c : Char) : Bool :=
  let n := c.toNat
  (decide (9 ≤ n) && decide (n ≤ 13)) || (decide (28 ≤ n) && decide (n ≤ 32)) ||
    n == 0x85 || n == 0xA0 || n == 0x1680 ||
    (decide (0x2000 ≤ n) && decide (n ≤ 0x200A)) ||
    n == 0x2028 || n == 0x2029 || n == 0x202F || n == 0x205F || n == 0x3000

/-- Python `str.strip()`: drop Python whitespace from both ends. -/
def pyStrip (s : String) : String :=
  String.mk (((s.data.dropWhile pyWhitespace).reverse.dropWhile
    pyWhitespace).reverse)

/-- The guarded form-submission path (line 117:
`if submitted and task_name.strip():`).  Returns the new table and whether
`save_data` was called.  A description that is blank after trimming is
rejected before the upsert runs and nothing is saved. -/
def submitForm (df : List Row) (activeUser taskDate taskName status deadline : String) :
    List Row × Bool :=
  if pyStrip taskName = "" then (df, false)
  else (upsert df activeUser taskDate taskName status deadline, true)

/-- The bulk-edit save path (lines 144-148): keep the rows whose user
differs from the active user (`df[df["user"] != active_user]`), force the
user column of the edited view to the active user
(`edited_df["user"] = active_user`), and concatenate. -/
def save_changes (df : List Row) (activeUser : String) (edited : List Row) : List Row :=
  df.filter (fun r => r.user != activeUser) ++
    edited.map (fun r => { r with user := activeUser })

/-! ## Column-level frame model (for `_ensure_columns` / `load_data`) -/

/-- A cell of a loaded table: either missing (pandas NA) or a value in its
textual form. -/
inductive Cell where
  | na : Cell
  | str : String → Cell
deriving DecidableEq, Repr

/-- One column of a data frame: its name, its dtype, and its cells. -/
structure Col where
  name : String
  dtype : String
  values : List Cell
deriving DecidableEq, Repr

/-- The required schema, in the order `_ensure_columns` iterates it. -/
def requiredColumns : List (String × String) :=
  [("user", "object"), ("date", "datetime64[ns]"), ("task", "object"),
   ("status", "object"), ("deadline", "datetime64[ns]")]

/-- Number of rows of a frame (length of its first column; 0 when there are
no columns). -/
def nrows : List Col → Nat
  | [] => 0
  | c :: _ => c.values.length

/-- `col in df.columns`. -/
def hasCol (df : List Col) (n : String) : Bool :=
  df.any (fun c => c.name == n)

/-- `_ensure_columns` (lines 40-51): for each required column missing from
the frame, assign `df[col] = pd.Series(dtype=dtype)` — a new rightmost
column of the declared dtype whose cells are all NA (the empty series
aligned to the frame's rows). -/
def ensure_columns (df : List Col) : List Col :=
  requiredColumns.foldl
    (fun acc cd =>
      if hasCol acc cd.1 then acc
      else acc ++ [{ name := cd.1, dtype := cd.2,
                     values := List.replicate (nrows acc) Cell.na }])
    df

/-- An all-NA column of the given (name, dtype) with the given row count:
what assigning `pd.Series(dtype=dtype)` to a frame creates. -/
def naCol (cd : String × String) (n : Nat) : Col :=
  { name := cd.1, dtype := cd.2, values := List.replicate n Cell.na }

/-- `load_data` (lines 54-59) at the column level: parse the file when it
exists (`some df` is the parsed frame), start from an empty frame when it
does not, then ensure the schema. -/
def load_data (file : Option (List Col)) : List Col :=
  match file with
  | some df => ensure_columns df
  | none => ensure_columns []

/-! ## CSV serialization (for `save_data` / `pd.read_csv`)

`df.to_csv(index=False)` writes a header line and one line per row,
quoting minimally (a field is quoted when it contains the delimiter, the
quote character or a line break, and inner quotes are doubled).
`pd.read_csv` parses that back; any default NA token (the empty field
included) becomes NA. -/

/-- Minimal quoting: a field needs quoting when it contains a comma, a
quote or a line break. -/
def needsQuote (s : String) : Bool :=
  s.data.any (fun c => c == ',' || c == '"' || c == '\n' || c == '\r')

/-- Double every quote character of a quoted field body. -/
def escapeChars : List Char → List Char
  | [] => []
  | c :: cs => if c = '"' then '"' :: '"' :: escapeChars cs else c :: escapeChars cs

/-- Render one CSV field with minimal quoting. -/
def renderField (s : String) : List Char :=
  if needsQuote s then '"' :: (escapeChars s.data ++ ['"']) else s.data

/-- Render one CSV record: fields joined by commas. -/
def renderFields : List String → List Char
  | [] => []
  | [s] => renderField s
  | s :: s2 :: rest => renderField s ++ ',' :: renderFields (s2 :: rest)

/-- Render a CSV file: each record followed by a newline. -/
def renderCsv : List (List String) → List Char
  | [] => []
  | r :: rs => renderFields r ++ '\n' :: renderCsv rs

/-- Parser state: outside quotes, inside quotes, or inside quotes having
just seen a quote character (which either doubles or closes). -/
inductive PState where
  | plain : PState
  | quoted : PState
  | quotedQuote : PState
deriving DecidableEq, Repr

/-- CSV reading automaton.  Arguments: remaining input, state, current
field (reversed), current record (reversed), finished records (reversed). -/
def parseCsvAux : List Char → PState → List Char → List String →
    List (List String) → List (List String)
  | [], st, f, r, acc =>
    if st = PState.plain ∧ f = [] ∧ r = [] then acc.reverse
    else ((String.mk f.reverse :: r).reverse :: acc).reverse
  | c :: cs, PState.plain, f, r, acc =>
    if c = ',' then parseCsvAux cs PState.plain [] (String.mk f.reverse :: r) acc
    else if c = '\n' then
      parseCsvAux cs PState.plain [] [] ((String.mk f.reverse :: r).reverse :: acc)
    else if c = '"' then parseCsvAux cs PState.quoted f r acc
    else parseCsvAux cs PState.plain (c :: f) r acc
  | c :: cs, PState.quoted, f, r, acc =>
    if c = '"' then parseCsvAux cs PState.quotedQuote f r acc
    else parseCsvAux cs PState.quoted (c :: f) r acc
  | c :: cs, PState.quotedQuote, f, r, acc =>
    if c = '"' then parseCsvAux cs PState.quoted ('"' :: f) r acc
    else if c = ',' then parseCsvAux cs PState.plain [] (String.mk f.reverse :: r) acc
    else if c = '\n' then
      parseCsvAux cs PState.plain [] [] ((String.mk f.reverse :: r).reverse :: acc)
    else parseCsvAux cs PState.plain (c :: f) r acc

/-- Parse a CSV character stream into records of fields. -/
def parseCsv (s : List Char) : List (List String) :=
  parseCsvAux s PState.plain [] [] []

/-- The header row `save_data` writes. -/
def csvHeader : List String := ["user", "date", "task", "status", "deadline"]

/-- The textual fields of a row, in column order. -/
def rowToFields (r : Row) : List String :=
  [r.user, r.date, r.task, r.status, r.deadline]

/-- `save_data` (lines 62-63): `df.to_csv(DATA_FILE, index=False)` — the
header followed by every row, in order. -/
def save_data (df : List Row) : String :=
  String.mk (renderCsv (csvHeader :: df.map rowToFields))

/-- The default NA tokens of `pd.read_csv` (`keep_default_na=True`):
field values the loader converts to NaN, the empty field included. -/
def defaultNaValues : List String :=
  ["", "#N/A", "#N/A N/A", "#NA", "-1.#IND", "-1.#QNAN", "-NaN", "-nan",
   "1.#IND", "1.#QNAN", "<NA>", "N/A", "NA", "NULL", "NaN", "None", "n/a",
   "nan", "null"]

/-- How `pd.read_csv` materialises one field: any default NA token
(the empty field included) is NA, anything else is the value itself. -/
def parseCell (s : String) : Cell :=
  if s ∈ defaultNaValues then Cell.na else Cell.str s

/-- `pd.read_csv` at the record level: the header line and the data rows as
cells.  Date parsing is modelled as the identity on the canonical textual
form. -/
def read_csv (s : String) : List String × List (List Cell) :=
  match parseCsv s.data with
  | [] => ([], [])
  | header :: rows => (header, rows.map (fun r => r.map parseCell))

/-- Every character is ASCII. -/
def asciiOnly (s : String) : Bool :=
  s.data.all (fun c => c.toNat < 128)

/-! ## Reminder notifier -/

/-- Python truthiness of an optional environment string: unset (`None`) and
the empty string are falsy. -/
def truthy : Option String → Bool
  | none => false
  | some s => s != ""

/-- The observable effect of `send_daily_reminder`: either it printed the
skip diagnostic and returned, or it attempted one SMTP transmission with
the given sender, password, recipient list, subject and body. -/
inductive ReminderAction where
  | skipped : String → ReminderAction
  | sent : String → String → List String → String → String → ReminderAction
deriving DecidableEq, Repr

/-- The diagnostic printed on the skip path. -/
def skipMessage : String := "[Reminder] Email creds or recipients missing; skip."

/-- The fixed subject line. -/
def reminderSubject : String := "Daily Task Tracker – please update your tasks"

/-- The fixed-template body, naming the dashboard location. -/
def reminderBody (dashboardUrl : String) : String :=
  "Hi team,\n\nThis is your automated reminder to update today" ++
    String.mk [Char.ofNat 39] ++ "s tasks.\n\nDashboard: " ++ dashboardUrl ++
    "\n\nRegards,\nTask Tracker Bot"

/-- `send_daily_reminder` (lines 67-92): skip with a diagnostic unless the
sender, the password and at least one recipient are truthy; otherwise
compose the templated message and attempt the transmission to all
recipients. -/
def send_daily_reminder (sender password : Option String) (recipients : List String)
    (dashboardUrl : String) : ReminderAction :=
  if !(truthy sender && truthy password && recipients.any (fun r => r != "")) then
    ReminderAction.skipped skipMessage
  else
    ReminderAction.sent (sender.getD "") (password.getD "") recipients
      reminderSubject (reminderBody dashboardUrl)

/-! ## Theorems -/

/-- C4: when the data file does not exist, `load_data` returns an empty
table (zero rows) with exactly the five required columns
user, date, task, status, deadline, and does not fail. -/
theorem load_data_none_empty_schema :
    (load_data none).map (fun c => c.name) = ["user", "date", "task", "status", "deadline"] ∧
    nrows (load_data none) = 0 ∧
    (load_data none).all (fun c => c.values.isEmpty) = true := by
  decide

/-- C6: `send_daily_reminder` skips with the diagnostic message (no network
call, no error) exactly when the sender, the password or every configured
recipient is untruthy; equivalently, it attempts the transmission only when
sender credentials and at least one non-empty recipient are configured. -/
theorem send_daily_reminder_skip_iff (sender password : Option String)
    (recipients : List String) (url : String) :
    send_daily_reminder sender password recipients url = ReminderAction.skipped skipMessage ↔
    (truthy sender && truthy password && recipients.any (fun r => r != "")) = false := by
  unfold send_daily_reminder
  cases h : (truthy sender && truthy password && recipients.any (fun r => r != "")) <;>
    simp [h]

/-- C8: a submission whose description is blank after trimming performs
neither an update nor an append and does not save (the table is returned
unchanged with the saved flag false); any description that is non-blank
after trimming is accepted as-is, the upsert running on the un-trimmed
description with no further validation. -/
theorem submitForm_blank_guard (df : List Row) (u d t s dl : String) :
    (pyStrip t = "" → submitForm df u d t s dl = (df, false)) ∧
    (pyStrip t ≠ "" → submitForm df u d t s dl = (upsert df u d t s dl, true)) := by
  constructor
  · intro h
    simp [submitForm, h]
  · intro h
    simp [submitForm, h]

/-- Witness for C8 at concrete inputs: a whitespace-only description leaves
the table alone and saves nothing, a non-blank one runs the upsert and
saves. -/
theorem submitForm_blank_guard_witness :
    submitForm [] "u" "1" "  " "s" "e" = ([], false) ∧
    submitForm [] "u" "1" "t" "s" "e" = (upsert [] "u" "1" "t" "s" "e", true) := by
  refine ⟨(submitForm_blank_guard [] "u" "1" "  " "s" "e").1 (by decide),
    (submitForm_blank_guard [] "u" "1" "t" "s" "e").2 (by decide)⟩

/-- C3: submitting a record with a non-blank description whose
(user, date, description) key matches no existing row appends exactly one
new row carrying the submitted user, date, description, status and
deadline, so the row count increases by exactly one (and the table is
saved). -/
theorem submitForm_appends_new (df : List Row) (u d t s dl : String)
    (ht : pyStrip t ≠ "") (hm : df.any (taskMatches u d t) = false) :
    submitForm df u d t s dl =
      (df ++ [{ user := u, date := d, task := t, status := s, deadline := dl }], true) ∧
    (submitForm df u d t s dl).1.length = df.length + 1 := by
  have h1 : submitForm df u d t s dl =
      (df ++ [{ user := u, date := d, task := t, status := s, deadline := dl }], true) := by
    simp [submitForm, ht, upsert, hm]
  exact ⟨h1, by simp [h1]⟩

/-- Witness for C3 at a concrete input: a fresh key appends one row. -/
theorem submitForm_appends_new_witness :
    submitForm [{ user := "v", date := "1", task := "t", status := "s0", deadline := "e0" }]
        "u" "1" "t" "s" "e" =
      ([{ user := "v", date := "1", task := "t", status := "s0", deadline := "e0" },
        { user := "u", date := "1", task := "t", status := "s", deadline := "e" }], true) := by
  have h := submitForm_appends_new
    [{ user := "v", date := "1", task := "t", status := "s0", deadline := "e0" }]
    "u" "1" "t" "s" "e" (by decide) (by decide)
  simpa using h.1

/-- C1: when the submitted record's (user, date, description) key matches
an existing row, the upsert keeps the row count and rewrites each row
pointwise: a matching row gets exactly the submitted status and deadline
with its user, date and task untouched, and every non-matching row is
entirely unchanged. -/
theorem upsert_updates_in_place (df : List Row) (u d t s dl : String)
    (h : df.any (taskMatches u d t) = true) :
    (upsert df u d t s dl).length = df.length ∧
    ∀ i : Nat, (upsert df u d t s dl)[i]? =
      (df[i]?).map (fun r =>
        if taskMatches u d t r then { r with status := s, deadline := dl } else r) := by
  rw [upsert, if_pos h]
  exact ⟨df.length_map _, fun i => df.getElem?_map _ i⟩

/-- Witness for C1 at a concrete two-row table: the matching row gets the
new status and deadline, the other row is unchanged, the length is kept. -/
theorem upsert_updates_in_place_witness :
    (upsert [{ user := "u", date := "1", task := "t", status := "s0", deadline := "e0" },
             { user := "v", date := "2", task := "w", status := "s9", deadline := "e9" }]
        "u" "1" "t" "s1" "e1").length = 2 ∧
    (upsert [{ user := "u", date := "1", task := "t", status := "s0", deadline := "e0" },
             { user := "v", date := "2", task := "w", status := "s9", deadline := "e9" }]
        "u" "1" "t" "s1" "e1")[1]? =
      some { user := "v", date := "2", task := "w", status := "s9", deadline := "e9" } := by
  have h := upsert_updates_in_place
    [{ user := "u", date := "1", task := "t", status := "s0", deadline := "e0" },
     { user := "v", date := "2", task := "w", status := "s9", deadline := "e9" }]
    "u" "1" "t" "s1" "e1" (by decide)
  exact ⟨h.1, by simpa using h.2 1⟩

/-- C2: the bulk-edit save produces a table whose row count is the number
of rows belonging to other owners plus the number of rows in the edited
view, and every row belonging to an owner other than the active user
survives with exactly its original multiplicity, unchanged in all five
fields. -/
theorem save_changes_counts (df : List Row) (activeUser : String) (edited : List Row) :
    (save_changes df activeUser edited).length =
      (df.filter (fun r => r.user != activeUser)).length + edited.length ∧
    ∀ r : Row, r.user ≠ activeUser →
      (save_changes df activeUser edited).count r = df.count r := by
  constructor
  · simp [save_changes]
  · intro r hr
    have hmap : (edited.map (fun r0 => { r0 with user := activeUser })).count r = 0 := by
      refine List.count_eq_zero.2 ?_
      intro hmem
      rcases List.mem_map.1 hmem with ⟨x, _, hx⟩
      apply hr
      rw [← hx]
    have hfil : (df.filter (fun r0 => r0.user != activeUser)).count r = df.count r := by
      induction df with
      | nil => rfl
      | cons a l ih =>
        by_cases ha : a.user != activeUser
        · simp only [List.filter_cons, ha]
          rcases eq_or_ne a r with h | h
          · simp [h, List.count_cons, ih]
          · simp [List.count_cons, h, ih]
        · have har : a ≠ r := by
            intro h
            subst h
            exact ha (bne_iff_ne.2 hr)
          simp only [List.filter_cons, ha, if_neg, Bool.false_eq_true]
          simp [List.count_cons, har, ih]
    rw [save_changes, List.count_append, hmap, hfil, Nat.add_zero]

/-- Witness for C2 at a concrete table: the other owner's row keeps its
multiplicity and the length splits. -/
theorem save_changes_counts_witness :
    (save_changes
        [{ user := "v", date := "1", task := "t", status := "s", deadline := "e" },
         { user := "u", date := "2", task := "w", status := "s2", deadline := "e2" }]
        "u"
        [{ user := "u", date := "3", task := "x", status := "s3", deadline := "e3" }]).length =
      1 + 1 ∧
    (save_changes
        [{ user := "v", date := "1", task := "t", status := "s", deadline := "e" },
         { user := "u", date := "2", task := "w", status := "s2", deadline := "e2" }]
        "u"
        [{ user := "u", date := "3", task := "x", status := "s3", deadline := "e3" }]).count
      { user := "v", date := "1", task := "t", status := "s", deadline := "e" } = 1 := by
  have h := save_changes_counts
    [{ user := "v", date := "1", task := "t", status := "s", deadline := "e" },
     { user := "u", date := "2", task := "w", status := "s2", deadline := "e2" }]
    "u"
    [{ user := "u", date := "3", task := "x", status := "s3", deadline := "e3" }]
  refine ⟨by simpa using h.1, ?_⟩
  have h2 := h.2 { user := "v", date := "1", task := "t", status := "s", deadline := "e" }
    (by decide)
  simpa using h2

/-- C10: on the bulk-edit save path the user field of every edited row is
overwritten with the active user before recombination, so every row of the
saved table is either owned by the active user or is an unchanged row of
the previous table owned by another user; a bulk edit can never create or
reassign rows owned by another user. -/
theorem save_changes_ownership (df : List Row) (activeUser : String) (edited : List Row) :
    ∀ r ∈ save_changes df activeUser edited,
      r.user = activeUser ∨ (r ∈ df ∧ r.user ≠ activeUser) := by
  intro r hr
  rcases List.mem_append.1 hr with hl | hrt
  · rcases List.mem_filter.1 hl with ⟨hmem, hne⟩
    exact Or.inr ⟨hmem, bne_iff_ne.1 hne⟩
  · rcases List.mem_map.1 hrt with ⟨x, _, hx⟩
    left
    rw [← hx]

/-- Witness for C10 at a concrete input: a bulk-edited row submitted with a
different owner ends up owned by the active user. -/
theorem save_changes_ownership_witness :
    ({ user := "u", date := "3", task := "x", status := "s3", deadline := "e3" } : Row).user
        = "u" ∨
      (({ user := "u", date := "3", task := "x", status := "s3", deadline := "e3" } : Row) ∈
          ([] : List Row) ∧
        ({ user := "u", date := "3", task := "x", status := "s3", deadline := "e3" } : Row).user
          ≠ "u") := by
  exact save_changes_ownership [] "u"
    [{ user := "w", date := "3", task := "x", status := "s3", deadline := "e3" }]
    { user := "u", date := "3", task := "x", status := "s3", deadline := "e3" }
    (by decide)

/-- Overwriting status and deadline does not change the match key. -/
theorem taskMatches_update (u d t s dl : String) (r : Row) :
    taskMatches u d t { r with status := s, deadline := dl } = taskMatches u d t r := rfl

/-- The row the upsert appends matches its own key. -/
theorem taskMatches_self (u d t s dl : String) :
    taskMatches u d t { user := u, date := d, task := t, status := s, deadline := dl } = true := by
  simp [taskMatches]

/-- Unfolding the upsert on a key that occurs in the table. -/
theorem upsert_pos (df : List Row) (u d t s dl : String)
    (h : df.any (taskMatches u d t) = true) :
    upsert df u d t s dl = df.map (fun r =>
      if taskMatches u d t r then { r with status := s, deadline := dl } else r) := by
  rw [upsert, if_pos h]

/-- Unfolding the upsert on a key absent from the table. -/
theorem upsert_neg (df : List Row) (u d t s dl : String)
    (h : df.any (taskMatches u d t) = false) :
    upsert df u d t s dl =
      df ++ [{ user := u, date := d, task := t, status := s, deadline := dl }] := by
  rw [upsert, if_neg (by simp [h])]

/-- After an upsert, some row of the table matches the upserted key. -/
theorem any_taskMatches_upsert (df : List Row) (u d t s dl : String) :
    (upsert df u d t s dl).any (taskMatches u d t) = true := by
  cases h : df.any (taskMatches u d t) with
  | true =>
    rw [upsert_pos df u d t s dl h]
    rcases List.any_eq_true.1 h with ⟨a, ha, hm⟩
    refine List.any_eq_true.2 ⟨_, List.mem_map_of_mem _ ha, ?_⟩
    rw [if_pos hm, taskMatches_update]
    exact hm
  | false =>
    rw [upsert_neg df u d t s dl h, List.any_append]
    simp [taskMatches_self]

/-- C9: the upsert is last-write-wins and idempotent — submitting the same
record twice yields the same table as submitting it once, and after two
submissions sharing a key every row matching that key carries the later
submission's status and deadline. -/
theorem upsert_idempotent_last_write_wins (df : List Row)
    (u d t s dl s1 dl1 s2 dl2 : String) :
    upsert (upsert df u d t s dl) u d t s dl = upsert df u d t s dl ∧
    ∀ r ∈ upsert (upsert df u d t s1 dl1) u d t s2 dl2,
      taskMatches u d t r = true → r.status = s2 ∧ r.deadline = dl2 := by
  constructor
  · rw [upsert_pos _ u d t s dl (any_taskMatches_upsert df u d t s dl)]
    cases h : df.any (taskMatches u d t) with
    | true =>
      rw [upsert_pos df u d t s dl h, List.map_map]
      refine List.map_congr_left ?_
      intro a _
      by_cases hma : taskMatches u d t a = true
      · simp [hma, taskMatches_update]
      · simp [hma]
    | false =>
      rw [upsert_neg df u d t s dl h, List.map_append]
      have hdf : df.map (fun r =>
          if taskMatches u d t r then { r with status := s, deadline := dl } else r) = df := by
        have hall := List.any_eq_false.1 h
        conv_rhs => rw [← List.map_id df]
        refine List.map_congr_left ?_
        intro a ha
        rw [if_neg (hall a ha), id]
      rw [hdf]
      rw [List.map_singleton, if_pos (taskMatches_self u d t s dl)]
  · intro r hr hm
    rw [upsert_pos _ u d t s2 dl2 (any_taskMatches_upsert df u d t s1 dl1)] at hr
    rcases List.mem_map.1 hr with ⟨a, _, hfa⟩
    by_cases hma : taskMatches u d t a = true
    · rw [if_pos hma] at hfa
      rw [← hfa]
      exact ⟨rfl, rfl⟩
    · rw [if_neg hma] at hfa
      rw [← hfa] at hm
      exact absurd hm hma

/-- Witness for C9 at a concrete input: the repeated submission is a no-op
and the row produced by two submissions with the same key has the second
status and deadline. -/
theorem upsert_idempotent_last_write_wins_witness :
    upsert (upsert [] "u" "1" "t" "s" "e") "u" "1" "t" "s" "e" =
      upsert [] "u" "1" "t" "s" "e" ∧
    ({ user := "u", date := "1", task := "t", status := "s2", deadline := "e2" } : Row).status
        = "s2" ∧
      ({ user := "u", date := "1", task := "t", status := "s2", deadline := "e2" } : Row).deadline
        = "e2" := by
  refine ⟨(upsert_idempotent_last_write_wins [] "u" "1" "t" "s" "e" "s1" "e1" "s2" "e2").1, ?_⟩
  exact (upsert_idempotent_last_write_wins [] "u" "1" "t" "s" "e" "s1" "e1" "s2" "e2").2
    { user := "u", date := "1", task := "t", status := "s2", deadline := "e2" }
    (by decide) (by decide)

/-- Column lookup distributes over frame concatenation. -/
theorem hasCol_append (df e : List Col) (n : String) :
    hasCol (df ++ e) n = (hasCol df n || hasCol e n) := by
  simp [hasCol, List.any_append]

/-- Appending columns whose length is the frame's row count does not change
the row count. -/
theorem nrows_append (df e : List Col) (h : ∀ c ∈ e, c.values.length = nrows df) :
    nrows (df ++ e) = nrows df := by
  cases df with
  | nil =>
    cases e with
    | nil => rfl
    | cons c e2 => simpa [nrows] using h c (List.mem_cons_self c e2)
  | cons c df2 => simp [nrows]


/-- Invariant of the `_ensure_columns` fold: starting from the original
frame extended by already-added columns (all of the original row count,
none named like a remaining required column), the fold appends exactly one
all-NA column of the declared dtype per missing required name. -/
theorem ensure_columns_go (cds : List (String × String)) (df : List Col) :
    ∀ extra : List Col,
      (∀ c ∈ extra, c.values.length = nrows df) →
      (∀ c ∈ extra, ∀ cd ∈ cds, ¬(c.name = cd.1)) →
      (cds.map Prod.fst).Nodup →
      cds.foldl
        (fun acc cd =>
          if hasCol acc cd.1 then acc else acc ++ [naCol cd (nrows acc)])
        (df ++ extra) =
      df ++ extra ++ (cds.filter (fun cd => !(hasCol df cd.1))).map
        (fun cd => naCol cd (nrows df)) := by
  induction cds with
  | nil =>
    intro extra _ _ _
    simp
  | cons cd cds2 ih =>
    intro extra hlen hname hnodup
    have hextra : hasCol extra cd.1 = false := by
      refine List.any_eq_false.2 ?_
      intro c hc
      simpa using hname c hc cd (List.mem_cons_self cd cds2)
    have hcol : hasCol (df ++ extra) cd.1 = hasCol df cd.1 := by
      rw [hasCol_append, hextra, Bool.or_false]
    have hnr : nrows (df ++ extra) = nrows df := nrows_append df extra hlen
    simp only [List.foldl_cons]
    by_cases h : hasCol df cd.1 = true
    · rw [if_pos (by rw [hcol]; exact h)]
      rw [ih extra hlen
        (fun c hc cd2 hcd2 => hname c hc cd2 (List.mem_cons_of_mem cd hcd2))
        (List.Nodup.of_cons hnodup)]
      have hfil : (cd :: cds2).filter (fun cd2 => !(hasCol df cd2.1)) =
          cds2.filter (fun cd2 => !(hasCol df cd2.1)) := by
        simp [List.filter_cons, h]
      rw [hfil]
    · have h2 : hasCol df cd.1 = false := by
        cases h3 : hasCol df cd.1 with
        | true => exact absurd h3 h
        | false => rfl
      rw [if_neg (by rw [hcol, h2]; simp), hnr, List.append_assoc df extra [naCol cd (nrows df)]]
      have hnewname : ∀ cd2 ∈ cds2, ¬(cd.1 = cd2.1) := by
        intro cd2 hcd2 heq
        rcases List.nodup_cons.1 hnodup with ⟨hnotin, _⟩
        exact hnotin (heq ▸ List.mem_map_of_mem Prod.fst hcd2)
      rw [ih (extra ++ [naCol cd (nrows df)])
        (by
          intro c hc
          rcases List.mem_append.1 hc with hc2 | hc2
          · exact hlen c hc2
          · rcases List.mem_singleton.1 hc2 with rfl
            simp [naCol])
        (by
          intro c hc cd2 hcd2
          rcases List.mem_append.1 hc with hc2 | hc2
          · exact hname c hc2 cd2 (List.mem_cons_of_mem cd hcd2)
          · rcases List.mem_singleton.1 hc2 with rfl
            simpa [naCol] using hnewname cd2 hcd2)
        (List.Nodup.of_cons hnodup)]
      have hfil : (cd :: cds2).filter (fun cd2 => !(hasCol df cd2.1)) =
          cd :: cds2.filter (fun cd2 => !(hasCol df cd2.1)) := by
        simp [List.filter_cons, h2]
      rw [hfil, List.map_cons, List.append_assoc df extra _, List.append_assoc]
      simp

/-- C7: loading a table that lacks some of the five required columns does
not fail and returns the table with every originally present column
unchanged in place, followed by one back-filled column per missing required
name — of the declared dtype and containing no data (all cells NA, one per
existing row); in particular all five required columns are present
afterwards. -/
theorem load_data_backfills_missing (df : List Col) :
    load_data (some df) =
      df ++ (requiredColumns.filter (fun cd => !(hasCol df cd.1))).map
        (fun cd => naCol cd (nrows df)) ∧
    ∀ cd ∈ requiredColumns, hasCol (load_data (some df)) cd.1 = true := by
  have hmain : load_data (some df) =
      df ++ (requiredColumns.filter (fun cd => !(hasCol df cd.1))).map
        (fun cd => naCol cd (nrows df)) := by
    have h := ensure_columns_go requiredColumns df []
      (by intro c hc; cases hc)
      (by intro c hc; cases hc)
      (by decide)
    rw [List.append_nil] at h
    exact h
  refine ⟨hmain, ?_⟩
  intro cd hcd
  rw [hmain, hasCol_append]
  cases h : hasCol df cd.1 with
  | true => rfl
  | false =>
    have hmem : cd ∈ requiredColumns.filter (fun cd2 => !(hasCol df cd2.1)) :=
      List.mem_filter.2 ⟨hcd, by rw [h]; rfl⟩
    have : hasCol ((requiredColumns.filter (fun cd2 => !(hasCol df cd2.1))).map
        (fun cd2 => naCol cd2 (nrows df))) cd.1 = true := by
      refine List.any_eq_true.2 ⟨naCol cd (nrows df), List.mem_map_of_mem _ hmem, ?_⟩
      simp [naCol]
    rw [this, Bool.or_true]

/-- Witness for C7: a one-row frame having only the task column gains a
back-filled user column. -/
theorem load_data_backfills_missing_witness :
    hasCol (load_data
      (some [{ name := "task", dtype := "object", values := [Cell.str "x"] }]))
      "user" = true := by
  exact (load_data_backfills_missing
    [{ name := "task", dtype := "object", values := [Cell.str "x"] }]).2
    ("user", "object") (by decide)

/-- Automaton step: a comma in the plain state pushes the current field. -/
theorem parseCsvAux_plain_comma (cs : List Char) (f : List Char) (r : List String)
    (acc : List (List String)) :
    parseCsvAux (',' :: cs) PState.plain f r acc =
      parseCsvAux cs PState.plain [] (String.mk f.reverse :: r) acc := rfl

/-- Automaton step: a newline in the plain state finishes the record. -/
theorem parseCsvAux_plain_newline (cs : List Char) (f : List Char) (r : List String)
    (acc : List (List String)) :
    parseCsvAux ('\n' :: cs) PState.plain f r acc =
      parseCsvAux cs PState.plain [] [] ((String.mk f.reverse :: r).reverse :: acc) := rfl

/-- Automaton step: a quote in the plain state opens a quoted field. -/
theorem parseCsvAux_plain_quote (cs : List Char) (f : List Char) (r : List String)
    (acc : List (List String)) :
    parseCsvAux ('"' :: cs) PState.plain f r acc =
      parseCsvAux cs PState.quoted f r acc := rfl

/-- Automaton step: an ordinary character in the plain state joins the
current field. -/
theorem parseCsvAux_plain_char (c : Char) (cs : List Char) (f : List Char) (r : List String)
    (acc : List (List String)) (h1 : ¬(c = ',')) (h2 : ¬(c = '\n')) (h3 : ¬(c = '"')) :
    parseCsvAux (c :: cs) PState.plain f r acc =
      parseCsvAux cs PState.plain (c :: f) r acc := by
  show (if c = ',' then parseCsvAux cs PState.plain [] (String.mk f.reverse :: r) acc
    else if c = '\n' then
      parseCsvAux cs PState.plain [] [] ((String.mk f.reverse :: r).reverse :: acc)
    else if c = '"' then parseCsvAux cs PState.quoted f r acc
    else parseCsvAux cs PState.plain (c :: f) r acc) = _
  rw [if_neg h1, if_neg h2, if_neg h3]

/-- Automaton step: a quote inside a quoted field either doubles or
closes. -/
theorem parseCsvAux_quoted_quote (cs : List Char) (f : List Char) (r : List String)
    (acc : List (List String)) :
    parseCsvAux ('"' :: cs) PState.quoted f r acc =
      parseCsvAux cs PState.quotedQuote f r acc := rfl

/-- Automaton step: an ordinary character inside quotes joins the field. -/
theorem parseCsvAux_quoted_char (c : Char) (cs : List Char) (f : List Char) (r : List String)
    (acc : List (List String)) (h : ¬(c = '"')) :
    parseCsvAux (c :: cs) PState.quoted f r acc =
      parseCsvAux cs PState.quoted (c :: f) r acc := by
  show (if c = '"' then parseCsvAux cs PState.quotedQuote f r acc
    else parseCsvAux cs PState.quoted (c :: f) r acc) = _
  rw [if_neg h]

/-- Automaton step: a second quote right after a quote inside quotes is a
literal quote character. -/
theorem parseCsvAux_qq_quote (cs : List Char) (f : List Char) (r : List String)
    (acc : List (List String)) :
    parseCsvAux ('"' :: cs) PState.quotedQuote f r acc =
      parseCsvAux cs PState.quoted ('"' :: f) r acc := rfl

/-- Automaton step: a comma after a closing quote pushes the field. -/
theorem parseCsvAux_qq_comma (cs : List Char) (f : List Char) (r : List String)
    (acc : List (List String)) :
    parseCsvAux (',' :: cs) PState.quotedQuote f r acc =
      parseCsvAux cs PState.plain [] (String.mk f.reverse :: r) acc := rfl

/-- Automaton step: a newline after a closing quote finishes the record. -/
theorem parseCsvAux_qq_newline (cs : List Char) (f : List Char) (r : List String)
    (acc : List (List String)) :
    parseCsvAux ('\n' :: cs) PState.quotedQuote f r acc =
      parseCsvAux cs PState.plain [] [] ((String.mk f.reverse :: r).reverse :: acc) := rfl

/-- Reading the end of the input in the clean state yields the finished
records. -/
theorem parseCsvAux_done (acc : List (List String)) :
    parseCsvAux [] PState.plain [] [] acc = acc.reverse := by
  show (if PState.plain = PState.plain ∧ ([] : List Char) = [] ∧ ([] : List String) = []
    then acc.reverse else ((String.mk List.nil.reverse :: []).reverse :: acc).reverse) = _
  rw [if_pos ⟨rfl, rfl, rfl⟩]

/-- Reading the escaped body of a quoted field accumulates exactly the
original characters and stops on the closing quote. -/
theorem parseCsvAux_escape (s : List Char) :
    ∀ (t f : List Char) (r : List String) (acc : List (List String)),
      parseCsvAux (escapeChars s ++ '"' :: t) PState.quoted f r acc =
        parseCsvAux t PState.quotedQuote (s.reverse ++ f) r acc := by
  induction s with
  | nil =>
    intro t f r acc
    rw [show escapeChars [] = [] from rfl, List.nil_append, parseCsvAux_quoted_quote]
    simp
  | cons c s2 ih =>
    intro t f r acc
    by_cases hc : c = '"'
    · subst hc
      rw [show escapeChars ('"' :: s2) = '"' :: '"' :: escapeChars s2 from rfl,
        List.cons_append, List.cons_append, parseCsvAux_quoted_quote, parseCsvAux_qq_quote,
        ih t ('"' :: f) r acc]
      simp
    · rw [show escapeChars (c :: s2) = c :: escapeChars s2 from by
          rw [escapeChars, if_neg hc],
        List.cons_append, parseCsvAux_quoted_char c _ _ _ _ hc, ih t (c :: f) r acc]
      simp

/-- Reading a run of ordinary characters in the plain state accumulates
them into the current field. -/
theorem parseCsvAux_plain_run (s : List Char) :
    ∀ (t f : List Char) (r : List String) (acc : List (List String)),
      (∀ c ∈ s, ¬(c = ',') ∧ ¬(c = '\n') ∧ ¬(c = '"')) →
      parseCsvAux (s ++ t) PState.plain f r acc =
        parseCsvAux t PState.plain (s.reverse ++ f) r acc := by
  induction s with
  | nil =>
    intro t f r acc _
    simp
  | cons c s2 ih =>
    intro t f r acc h
    rcases h c (List.mem_cons_self c s2) with ⟨h1, h2, h3⟩
    rw [List.cons_append, parseCsvAux_plain_char c _ _ _ _ h1 h2 h3,
      ih t (c :: f) r acc (fun c2 hc2 => h c2 (List.mem_cons_of_mem c hc2))]
    simp

/-- A field that renders unquoted contains no comma, newline or quote. -/
theorem needsQuote_false_chars (s : String) (hq : ¬(needsQuote s = true)) :
    ∀ c ∈ s.data, ¬(c = ',') ∧ ¬(c = '\n') ∧ ¬(c = '"') := by
  intro c hc
  have h5 : ¬((c == ',' || c == '"' || c == '\n' || c == '\r') = true) := by
    intro hcc
    exact hq (List.any_eq_true.2 ⟨c, hc, hcc⟩)
  exact ⟨fun h6 => h5 (by simp [h6]), fun h6 => h5 (by simp [h6]),
    fun h6 => h5 (by simp [h6])⟩

/-- Reading one rendered field followed by a comma pushes exactly that
field onto the current record. -/
theorem parseCsvAux_field_comma (s : String) (t : List Char) (r : List String)
    (acc : List (List String)) :
    parseCsvAux (renderField s ++ ',' :: t) PState.plain [] r acc =
      parseCsvAux t PState.plain [] (s :: r) acc := by
  unfold renderField
  by_cases hq : needsQuote s = true
  · rw [if_pos hq]
    have hassoc : ('"' :: (escapeChars s.data ++ ['"'])) ++ ',' :: t =
        '"' :: (escapeChars s.data ++ '"' :: (',' :: t)) := by
      simp
    rw [hassoc, parseCsvAux_plain_quote, parseCsvAux_escape, parseCsvAux_qq_comma]
    simp
  · rw [if_neg hq, parseCsvAux_plain_run s.data (',' :: t) [] r acc
      (needsQuote_false_chars s hq), parseCsvAux_plain_comma]
    simp

/-- Reading one rendered field followed by a newline finishes the current
record with exactly that field on top. -/
theorem parseCsvAux_field_newline (s : String) (t : List Char) (r : List String)
    (acc : List (List String)) :
    parseCsvAux (renderField s ++ '\n' :: t) PState.plain [] r acc =
      parseCsvAux t PState.plain [] [] ((s :: r).reverse :: acc) := by
  unfold renderField
  by_cases hq : needsQuote s = true
  · rw [if_pos hq]
    have hassoc : ('"' :: (escapeChars s.data ++ ['"'])) ++ '\n' :: t =
        '"' :: (escapeChars s.data ++ '"' :: ('\n' :: t)) := by
      simp
    rw [hassoc, parseCsvAux_plain_quote, parseCsvAux_escape, parseCsvAux_qq_newline]
    simp
  · rw [if_neg hq, parseCsvAux_plain_run s.data ('\n' :: t) [] r acc
      (needsQuote_false_chars s hq), parseCsvAux_plain_newline]
    simp

/-- Reading one rendered record followed by a newline appends exactly that
record. -/
theorem parseCsvAux_record (fs : List String) :
    ∀ (t : List Char) (r : List String) (acc : List (List String)),
      fs ≠ [] →
      parseCsvAux (renderFields fs ++ '\n' :: t) PState.plain [] r acc =
        parseCsvAux t PState.plain [] [] ((fs.reverse ++ r).reverse :: acc) := by
  induction fs with
  | nil =>
    intro t r acc h
    exact absurd rfl h
  | cons s rest ih =>
    intro t r acc _
    cases rest with
    | nil =>
      rw [show renderFields [s] = renderField s from rfl, parseCsvAux_field_newline]
      simp
    | cons s2 rest2 =>
      rw [show renderFields (s :: s2 :: rest2) =
            renderField s ++ ',' :: renderFields (s2 :: rest2) from rfl,
        List.append_assoc, List.cons_append, parseCsvAux_field_comma,
        ih t (s :: r) acc (List.cons_ne_nil s2 rest2)]
      simp

/-- Reading a fully rendered CSV stream from the clean state recovers all
records in order. -/
theorem parseCsvAux_csv (rs : List (List String)) :
    ∀ acc : List (List String),
      (∀ fs ∈ rs, fs ≠ []) →
      parseCsvAux (renderCsv rs) PState.plain [] [] acc = acc.reverse ++ rs := by
  induction rs with
  | nil =>
    intro acc _
    rw [show renderCsv [] = [] from rfl, parseCsvAux_done]
    simp
  | cons r rs2 ih =>
    intro acc h
    rw [show renderCsv (r :: rs2) = renderFields r ++ '\n' :: renderCsv rs2 from rfl,
      parseCsvAux_record r (renderCsv rs2) [] acc (h r (List.mem_cons_self r rs2))]
    simp only [List.append_nil, List.reverse_reverse]
    rw [ih (r :: acc) (fun fs hfs => h fs (List.mem_cons_of_mem r hfs))]
    simp

/-- Round trip of the CSV layer: parsing a rendered stream of non-empty
records gives back exactly those records. -/
theorem parseCsv_renderCsv (rs : List (List String)) (h : ∀ fs ∈ rs, fs ≠ []) :
    parseCsv (renderCsv rs) = rs := by
  rw [parseCsv, parseCsvAux_csv rs [] h]
  simp

/-- C5 counterexample: a table whose single row has the all-ASCII,
non-empty task description NA — all its other fields non-empty too — does
not survive the save/load round trip: the bare field NA is one of the
loader's default NA tokens and is read back as NaN, so the one loaded row
differs from the saved row (and with one row, equivalence up to row order
is plain equality). -/
theorem read_csv_save_data_not_roundtrip :
    asciiOnly ({ user := "Mukund", date := "1", task := "NA", status := "Completed", deadline := "2" } : Row).task = true ∧
    ({ user := "Mukund", date := "1", task := "NA", status := "Completed", deadline := "2" } : Row).task ≠ "" ∧
    ({ user := "Mukund", date := "1", task := "NA", status := "Completed", deadline := "2" } : Row).user ≠ "" ∧
    ({ user := "Mukund", date := "1", task := "NA", status := "Completed", deadline := "2" } : Row).date ≠ "" ∧
    ({ user := "Mukund", date := "1", task := "NA", status := "Completed", deadline := "2" } : Row).status ≠ "" ∧
    ({ user := "Mukund", date := "1", task := "NA", status := "Completed", deadline := "2" } : Row).deadline ≠ "" ∧
    (read_csv (save_data [{ user := "Mukund", date := "1", task := "NA", status := "Completed", deadline := "2" }])).2.length = 1 ∧
    (read_csv (save_data [{ user := "Mukund", date := "1", task := "NA", status := "Completed", deadline := "2" }])).2 ≠
      [(rowToFields { user := "Mukund", date := "1", task := "NA", status := "Completed", deadline := "2" }).map Cell.str] := by
  decide

/-- C5 (amended): for every table whose task descriptions are all-ASCII
and non-empty and none of whose five field values is one of the loader's
default NA tokens (the empty string among them), saving with `save_data`
and then loading yields an equivalent table — the same header and, in the
same order (hence the same multiset), exactly the original rows. -/
theorem read_csv_save_data_roundtrip (df : List Row)
    (h : ∀ r ∈ df, asciiOnly r.task = true ∧ r.task ≠ "" ∧
      r.user ∉ defaultNaValues ∧ r.date ∉ defaultNaValues ∧
      r.task ∉ defaultNaValues ∧ r.status ∉ defaultNaValues ∧
      r.deadline ∉ defaultNaValues) :
    read_csv (save_data df) =
      (csvHeader, df.map (fun r => (rowToFields r).map Cell.str)) := by
  have hrecords : ∀ fs ∈ csvHeader :: df.map rowToFields, fs ≠ [] := by
    intro fs hfs
    rcases List.mem_cons.1 hfs with rfl | hfs2
    · exact List.cons_ne_nil _ _
    · rcases List.mem_map.1 hfs2 with ⟨r0, _, hr0⟩
      rw [← hr0]
      exact List.cons_ne_nil _ _
  have hparse : parseCsv (save_data df).data = csvHeader :: df.map rowToFields := by
    rw [show (save_data df).data = renderCsv (csvHeader :: df.map rowToFields) from rfl]
    exact parseCsv_renderCsv _ hrecords
  rw [read_csv, hparse]
  simp only [List.map_map]
  refine congrArg (Prod.mk csvHeader) ?_
  refine List.map_congr_left ?_
  intro r0 hr0
  rcases h r0 hr0 with ⟨_, _, hu, hd, htk, hs, hdl⟩
  simp [Function.comp, rowToFields, parseCell, hu, hd, htk, hs, hdl]

/-- Witness for C5 (amended) at a concrete one-row table whose task even
contains a comma: the loaded table is the saved one. -/
theorem read_csv_save_data_roundtrip_witness :
    read_csv (save_data [{ user := "Mukund", date := "1", task := "a,b", status := "Done", deadline := "2" }]) =
      (csvHeader,
        [[Cell.str "Mukund", Cell.str "1", Cell.str "a,b", Cell.str "Done", Cell.str "2"]]) := by
  have h := read_csv_save_data_roundtrip
    [{ user := "Mukund", date := "1", task := "a,b", status := "Done", deadline := "2" }]
    (by decide)
  simpa [rowToFields] using h
